import Mathlib

/-!
Verification of the fraud-alert triage service: shallow embedding of the
circuit breaker, the resilient tool wrapper, the orchestrator loop and the
token-bucket rate limiter, with theorems checking the documented behaviour.

Timestamps are JavaScript millisecond clocks, modelled as natural numbers;
where the source subtracts two timestamps the comparison is rewritten into
an addition so that a clock running backwards behaves exactly as the signed
JavaScript subtraction would.
-/

namespace FraudTriage

/-! ## Circuit breaker (agents/CircuitBreaker.ts) -/

/-- Per-tool circuit state, as in the CircuitBreakerState interface. -/
structure CircuitBreakerState where
  failures : Nat
  lastFailureTime : Nat
  isOpen : Bool
deriving Repr, DecidableEq

/-- Threshold of consecutive failures before the circuit opens. -/
def failureThreshold : Nat := 3

/-- Cooldown window in milliseconds while the circuit stays open. -/
def openDuration : Nat := 30000

/-- State a tool name starts with when first seen by getState. -/
def initialCBState : CircuitBreakerState :=
  { failures := 0, lastFailureTime := 0, isOpen := false }

/-- The private states map of the CircuitBreaker class, keyed by tool name.
An absent key behaves as the lazily inserted initial state, so the map is
modelled as a total function. -/
def CBStates : Type := String → CircuitBreakerState

/-- The map of a freshly constructed CircuitBreaker. -/
def initialCBStates : CBStates := fun _ => initialCBState

/-- Read the circuit state for a tool (getState). -/
def getState (ss : CBStates) (toolName : String) : CircuitBreakerState :=
  ss toolName

/-- Write the circuit state for a tool (states.set). -/
def setState (ss : CBStates) (toolName : String) (s : CircuitBreakerState) : CBStates :=
  fun n => if n = toolName then s else ss n

/-- onSuccess: zero the failure counter and close the circuit. -/
def onSuccess (ss : CBStates) (toolName : String) : CBStates :=
  let s := getState ss toolName
  setState ss toolName { s with failures := 0, isOpen := false }

/-- onFailure: bump the failure counter, stamp the failure time, and open the
circuit once the counter reaches the threshold. -/
def onFailure (ss : CBStates) (toolName : String) (now : Nat) : CBStates :=
  let s := getState ss toolName
  let failures := s.failures + 1
  setState ss toolName
    { failures := failures
      lastFailureTime := now
      isOpen := if failureThreshold ≤ failures then true else s.isOpen }

/-- resetCircuit: replace the state with a fresh zeroed record. -/
def resetCircuit (ss : CBStates) (toolName : String) : CBStates :=
  setState ss toolName { failures := 0, lastFailureTime := 0, isOpen := false }

/-- Message of the error thrown while the circuit is open; it is a fresh
error distinct from anything the wrapped function threw. -/
def circuitOpenMsg (toolName : String) : String :=
  "Circuit breaker open for " ++ toolName

/-- Outcome of one CircuitBreaker.execute call: the value returned or error
thrown, the updated states map, and whether the wrapped function ran. -/
structure CBExecResult (α : Type) where
  result : Except String α
  states : CBStates
  fnInvoked : Bool

/-- CircuitBreaker.execute: fail fast while open inside the cooldown window,
reset lazily once the window has passed, otherwise run the wrapped function
and record its success or failure.  The behaviour of the wrapped function is
supplied as the value it returns or the error it throws. -/
def CircuitBreaker.execute (ss : CBStates) (toolName : String) (now : Nat)
    (fnOutcome : Except String α) : CBExecResult α :=
  let s := getState ss toolName
  if s.isOpen = true ∧ now < s.lastFailureTime + openDuration then
    { result := Except.error (circuitOpenMsg toolName), states := ss, fnInvoked := false }
  else
    let ss1 := if s.isOpen then resetCircuit ss toolName else ss
    match fnOutcome with
    | Except.ok a => { result := Except.ok a, states := onSuccess ss1 toolName, fnInvoked := true }
    | Except.error e => { result := Except.error e, states := onFailure ss1 toolName now, fnInvoked := true }

@[simp] theorem getState_setState_same (ss : CBStates) (n : String) (s : CircuitBreakerState) :
    getState (setState ss n s) n = s := by
  simp [getState, setState]

@[simp] theorem getState_initial (n : String) :
    getState initialCBStates n = initialCBState := rfl

/-! ## Resilient tool wrapper (agents/tools/BaseTool.ts) -/

/-- Retry budget of the wrapper: up to maxRetries retries after the first
attempt, so maxRetries + 1 attempts in total. -/
def maxRetries : Nat := 2

/-- Retry loop of executeWithRetry, running from a given attempt index with a
given number of retries remaining.  Each attempt races the tool body against
the timeout; its outcome (value or thrown error message, a timeout being the
error message the timeout promise rejects with) is supplied by the attempts
function.  Returns the propagated outcome and the number of attempts made. -/
def retryFrom (attempts : Nat → Except String α) : Nat → Nat → Except String α × Nat
  | attempt, remaining =>
    match attempts attempt, remaining with
    | Except.ok a, _ => (Except.ok a, attempt + 1)
    | Except.error e, 0 => (Except.error e, attempt + 1)
    | Except.error _, r + 1 => retryFrom attempts (attempt + 1) r

/-- executeWithRetry: run attempts 0 .. maxRetries, returning the first
success or throwing the last error. -/
def executeWithRetry (attempts : Nat → Except String α) : Except String α × Nat :=
  retryFrom attempts 0 maxRetries

/-- ToolResult as produced by BaseTool.execute: either ok with data or a
failure with an error message, plus the elapsed duration. -/
structure ToolResult (α : Type) where
  ok : Bool
  data : Option α
  error : Option String
  duration : Nat
deriving Repr, DecidableEq

/-- Outcome of one BaseTool.execute call: the normalized ToolResult, the
updated circuit states, and how many times the underlying run method was
invoked (one invocation per attempt of the retry loop). -/
structure ToolExecResult (α : Type) where
  result : ToolResult α
  states : CBStates
  runInvocations : Nat

/-- BaseTool.execute: wrap the retry loop in the circuit breaker and
normalize every outcome into a ToolResult; elapsed is the wall-clock time
the call took (Date.now() minus startTime). -/
def BaseTool.execute (ss : CBStates) (toolName : String) (now : Nat)
    (attempts : Nat → Except String α) (elapsed : Nat) : ToolExecResult α :=
  let retry := executeWithRetry attempts
  let cb := CircuitBreaker.execute ss toolName now retry.1
  match cb.result with
  | Except.ok a =>
      { result := { ok := true, data := some a, error := none, duration := elapsed }
        states := cb.states
        runInvocations := if cb.fnInvoked then retry.2 else 0 }
  | Except.error e =>
      { result := { ok := false, data := none, error := some e, duration := elapsed }
        states := cb.states
        runInvocations := if cb.fnInvoked then retry.2 else 0 }

/-! ## Token-bucket rate limiter (middleware/rateLimiter.ts)

Token counts are JavaScript floating point numbers; at the inputs reasoned
about here every intermediate value is exactly representable, so the bucket
arithmetic is modelled over the rationals. -/

/-- Bucket capacity (RATE_LIMIT_MAX_TOKENS default). -/
def maxTokens : ℚ := 5

/-- Refill rate in tokens per second (RATE_LIMIT_REQUESTS_PER_SECOND default). -/
def refillRate : ℚ := 5

/-- Refill interval in milliseconds. -/
def refillInterval : ℚ := 1000

/-- Bucket state stored in the shared store under the client key. -/
structure RateLimitBucket where
  tokens : ℚ
  lastRefill : Nat
deriving Repr, DecidableEq

/-- Token count after the refill step of checkLimit: an absent bucket starts
full, an existing bucket gains elapsed / refillInterval * refillRate tokens
capped at maxTokens.  The elapsed time is the signed difference of the two
clock readings, as in the source. -/
def refillTokens (bucket? : Option RateLimitBucket) (now : Nat) : ℚ :=
  match bucket? with
  | some b =>
      min maxTokens (b.tokens + (((now : ℤ) - (b.lastRefill : ℤ) : ℤ) : ℚ) / refillInterval * refillRate)
  | none => maxTokens

/-- Retry-after seconds reported with an HTTP 429: the token shortfall
divided by the refill rate, in milliseconds, rounded up, then rounded up
again to whole seconds. -/
def retryAfterSeconds (tokens : ℚ) : ℤ :=
  let retryAfterMs := Int.ceil ((1 - tokens) / refillRate * refillInterval)
  Int.ceil ((retryAfterMs : ℚ) / 1000)

/-- What one checkLimit call did: allowed requests call next() (after writing
the bucket back unless the write threw and the catch block called next()),
rejected requests receive a 429 with the retry-after value. -/
inductive LimitOutcome where
  | allowed (bucket : RateLimitBucket)
  | allowedFailOpen
  | rejected (retryAfter : ℤ)
deriving Repr, DecidableEq

/-- Whether next() was called, i.e. the request went through. -/
def LimitOutcome.isAllowed : LimitOutcome → Bool
  | LimitOutcome.allowed _ => true
  | LimitOutcome.allowedFailOpen => true
  | LimitOutcome.rejected _ => false

/-- Core of RateLimiter.checkLimit once the bucket has been read: refill,
then either consume one token and allow or reject with a retry-after. -/
def RateLimiter.checkLimit (bucket? : Option RateLimitBucket) (now : Nat) : LimitOutcome :=
  let tokens := refillTokens bucket? now
  if 1 ≤ tokens then
    LimitOutcome.allowed { tokens := tokens - 1, lastRefill := now }
  else
    LimitOutcome.rejected (retryAfterSeconds tokens)

/-- RateLimiter.checkLimit with the store in the picture: the bucket read may
throw (store down) and the bucket write on the allow path may throw; the
surrounding try/catch turns either into a plain next(), the fail-open path. -/
def RateLimiter.checkLimitWithStore (getOutcome : Except String (Option RateLimitBucket))
    (setThrows : Bool) (now : Nat) : LimitOutcome :=
  match getOutcome with
  | Except.error _ => LimitOutcome.allowedFailOpen
  | Except.ok bucket? =>
      match RateLimiter.checkLimit bucket? now with
      | LimitOutcome.allowed b => if setThrows then LimitOutcome.allowedFailOpen else LimitOutcome.allowed b
      | r => r

/-- A sequence of checkLimit calls for one client at the given times,
threading the stored bucket: an allowed call writes its bucket back, a
rejected call leaves the store untouched. -/
def checkSequence : Option RateLimitBucket → List Nat → List LimitOutcome
  | _, [] => []
  | bucket?, t :: ts =>
    match RateLimiter.checkLimit bucket? t with
    | LimitOutcome.allowed b => LimitOutcome.allowed b :: checkSequence (some b) ts
    | r => r :: checkSequence bucket? ts

/-! ## Orchestrator (agents/Orchestrator.ts) -/

/-- Risk levels of the RiskLevel enum. -/
inductive RiskLevel where
  | low
  | medium
  | high
deriving Repr, DecidableEq

/-- The data payload a tool hands back, as the orchestrator reads it: the
fraud tool contributes risk, reasons and a suggested action, the proposal
tool an action, the compliance tool the requiresOTP flag, the knowledge-base
tool a list of entry titles, the insights tool a spend pattern and the
redactor the piiFound flag.  Fields a given tool does not produce stay at
their defaults, matching an absent property on the JavaScript object. -/
structure ToolData where
  risk : Option RiskLevel := none
  reasons : Option (List String) := none
  action : Option String := none
  requiresOTP : Bool := false
  kbTitles : List String := []
  spendPattern : String := ""
  piiFound : Bool := false
deriving Repr, DecidableEq

/-- One recorded plan step (the AgentStep interface, minus the opaque detail
payload, which no further code inspects). -/
structure AgentStep where
  step : String
  ok : Bool
  duration : Nat
  fallbackUsed : Bool
deriving Repr, DecidableEq

/-- Events pushed over the SSE stream, including the connected event written
by the route and the completed and error events closing it. -/
inductive Event where
  | connected
  | planBuilt (plan : List String)
  | toolUpdateRunning (step : String)
  | toolUpdateCompleted (step : String) (duration : Nat)
  | fallbackTriggered (step : String) (reason : Option String)
  | decisionFinalized (risk : RiskLevel) (reasons : List String)
      (recommendedAction : String) (latencyMs : Nat)
  | completed
  | errorEvent (msg : String)
deriving Repr, DecidableEq

/-- Behaviour of one plan step in a given run, covering the normal path and
the two realistic exception sources inside the loop body of executeTriage:
normal means the whole try block ran (the tool returned its ToolResult and
the trace row was written); streamThrows means the stream callback threw
while the running event was being pushed, before the tool was invoked;
traceThrows means the tool returned its ToolResult but persisting the trace
row threw.  Either exception lands in the catch block, which records a
failed step and sets the fallback flag.  The duration is the wall-clock time
the iteration took. -/
inductive StepBehavior where
  | normal (r : ToolResult ToolData) (d : Nat)
  | streamThrows (msg : String) (d : Nat)
  | traceThrows (r : ToolResult ToolData) (msg : String) (d : Nat)
deriving Repr, DecidableEq

/-- The ToolResult a behaviour delivered, when the tool actually ran. -/
def behaviorResult : StepBehavior → Option (ToolResult ToolData)
  | StepBehavior.normal r _ => some r
  | StepBehavior.streamThrows _ _ => none
  | StepBehavior.traceThrows r _ _ => some r

/-- Total wall-clock budget for one run, in milliseconds. -/
def flowBudget : Nat := 5000

/-- The default five-step plan. -/
def defaultPlan : List String :=
  ["dataAccess", "riskSignals", "kbLookup", "decide", "proposeAction"]

/-- Mutable state of one executeTriage run: the recorded steps, the step
names of the persisted trace rows in order, the fallback flag, the per-tool
results kept for the final decision, the streamed events, and the elapsed
wall-clock time since the run started. -/
structure OrchState where
  steps : List AgentStep
  traces : List String
  fallbackUsed : Bool
  insightsResult : Option ToolData := none
  riskResult : Option ToolData := none
  kbResults : Option (List String) := none
  complianceResult : Option ToolData := none
  redactorResult : Option ToolData := none
  proposalResult : Option ToolData := none
  events : List Event
  elapsed : Nat
deriving Repr, DecidableEq

/-- The fixed medium-risk verdict substituted when the fraud tool fails
(Orchestrator.getFallbackRisk). -/
def getFallbackRisk : ToolData :=
  { risk := some RiskLevel.medium
    reasons := some ["Risk assessment unavailable (fallback)"]
    action := some "freeze_card" }

/-- Store a successful ToolResult into the slot its step name owns, exactly
as the if/else chain after the tool call does; a failed result stores
nothing, and the decide step has no slot. -/
def storeResult (st : OrchState) (step : String) (r : ToolResult ToolData) : OrchState :=
  if r.ok then
    if step = "insights" then { st with insightsResult := r.data }
    else if step = "riskSignals" then { st with riskResult := r.data }
    else if step = "kbLookup" then { st with kbResults := r.data.map ToolData.kbTitles }
    else if step = "compliance" then { st with complianceResult := r.data }
    else if step = "redactor" then { st with redactorResult := r.data }
    else if step = "proposeAction" then { st with proposalResult := r.data }
    else st
  else st

/-- Body of one loop iteration of executeTriage, after the tool was found
and the budget check passed.  On the normal path: push the running event,
store the result, record the step, persist the trace row, then either push
the completed event or mark the fallback, push the fallback event and, for
the riskSignals step, substitute the fallback verdict.  On an exception
path the catch block records a failed step and sets the fallback flag; a
trace row is only persisted on the normal path, and when the trace write
itself threw the step record pushed just before is followed by the failed
record pushed by the catch block. -/
def runStepBody (st : OrchState) (step : String) : StepBehavior → OrchState
  | StepBehavior.streamThrows _ d =>
      { st with
        events := st.events ++ [Event.toolUpdateRunning step]
        fallbackUsed := true
        steps := st.steps ++ [{ step := step, ok := false, duration := d, fallbackUsed := true }]
        elapsed := st.elapsed + d }
  | StepBehavior.normal r d =>
      let st1 : OrchState := { st with events := st.events ++ [Event.toolUpdateRunning step] }
      let st2 : OrchState := storeResult st1 step r
      let st3 : OrchState := { st2 with
        steps := st2.steps ++ [{ step := step, ok := r.ok, duration := d, fallbackUsed := !r.ok }]
        traces := st2.traces ++ [step] }
      let st4 :=
        if r.ok then
          { st3 with events := st3.events ++ [Event.toolUpdateCompleted step d] }
        else
          let st3f := { st3 with
            fallbackUsed := true
            events := st3.events ++ [Event.fallbackTriggered step r.error] }
          if step = "riskSignals" then { st3f with riskResult := some getFallbackRisk } else st3f
      { st4 with elapsed := st4.elapsed + d }
  | StepBehavior.traceThrows r _ d =>
      let st1 : OrchState := { st with events := st.events ++ [Event.toolUpdateRunning step] }
      let st2 : OrchState := storeResult st1 step r
      { st2 with
        steps := st2.steps ++
          [{ step := step, ok := r.ok, duration := d, fallbackUsed := !r.ok },
           { step := step, ok := false, duration := d, fallbackUsed := true }]
        fallbackUsed := true
        elapsed := st2.elapsed + d }

/-- The step loop of executeTriage: an unregistered step is skipped with a
logged error, and before each registered step the elapsed time is checked
against the flow budget, breaking out of the loop once it is exceeded. -/
def Orchestrator.execLoop (tools : String → Option StepBehavior) :
    OrchState → List String → OrchState
  | st, [] => st
  | st, step :: rest =>
    match tools step with
    | none => Orchestrator.execLoop tools st rest
    | some b =>
      if flowBudget < st.elapsed then st
      else Orchestrator.execLoop tools (runStepBody st step b) rest

/-- The TriageResult returned by executeTriage. -/
structure TriageResult where
  risk : RiskLevel
  reasons : List String
  recommendedAction : String
  plan : List String
  steps : List AgentStep
  fallbackUsed : Bool
  latencyMs : Nat
deriving Repr, DecidableEq

/-- The set of actions the action schema accepts. -/
def definedActions : List String :=
  ["freeze_card", "open_dispute", "contact_customer", "mark_false_positive"]

/-- Final decision assembly of executeTriage: risk and reasons from the risk
result with medium-risk defaults, the recommended action from the proposal
falling back to the risk suggestion and then to contact_customer, and the
compliance, knowledge-base, insights and redaction annotations appended to
the reasons in source order. -/
def finalDecision (st : OrchState) : RiskLevel × List String × String :=
  let risk := (st.riskResult.bind ToolData.risk).getD RiskLevel.medium
  let baseReasons := (st.riskResult.bind ToolData.reasons).getD
    ["Risk assessment unavailable (fallback)"]
  let recommendedAction :=
    (Option.orElse (st.proposalResult.bind ToolData.action)
      (fun _ => st.riskResult.bind ToolData.action)).getD "contact_customer"
  let r1 := baseReasons ++
    (if (st.complianceResult.map ToolData.requiresOTP).getD false then
      ["OTP verification required"] else [])
  let r2 := r1 ++
    (match st.kbResults with
     | some titles =>
        if 0 < titles.length then ["KB refs: " ++ String.intercalate ", " titles] else []
     | none => [])
  let r3 := r2 ++
    (match st.insightsResult with
     | some td => ["Spend pattern: " ++ td.spendPattern]
     | none => [])
  let r4 := r3 ++
    (if (st.redactorResult.map ToolData.piiFound).getD false then
      ["PII redacted from logs"] else [])
  (risk, r4, recommendedAction)

/-- Everything observable about one executeTriage call: the events delivered
to the stream callback, the step names of the persisted trace rows, and the
returned TriageResult or the error the call threw. -/
structure TriageRun where
  events : List Event
  traces : List String
  outcome : Except String TriageResult

/-- The starting state of the loop: no steps, no traces, no fallback, the
plan-built event already streamed, and the time already spent loading the
alert and creating the run record. -/
def initOrchState (plan : List String) (initElapsed : Nat) : OrchState :=
  { steps := [], traces := [], fallbackUsed := false
    events := [Event.planBuilt plan], elapsed := initElapsed }

/-- Orchestrator.executeTriage: load the alert (a missing alert throws and
aborts the run), create the run record, stream the plan, run the step loop,
assemble the final decision, persist the finalized run and stream the
decision-finalized event.  alertFound, createRunOk and updateRunOk describe
whether the three persistence interactions succeed; a failing one throws out
of executeTriage. -/
def Orchestrator.executeTriage (alertFound : Bool) (createRunOk : Bool) (updateRunOk : Bool)
    (tools : String → Option StepBehavior) (plan : List String) (initElapsed : Nat) : TriageRun :=
  if alertFound = false then
    { events := [], traces := [], outcome := Except.error "Alert not found" }
  else if createRunOk = false then
    { events := [], traces := [], outcome := Except.error "triage run create failed" }
  else
    let st := Orchestrator.execLoop tools (initOrchState plan initElapsed) plan
    let dec := finalDecision st
    let latencyMs := st.elapsed
    if updateRunOk = false then
      { events := st.events, traces := st.traces, outcome := Except.error "triage run update failed" }
    else
      { events := st.events ++ [Event.decisionFinalized dec.1 dec.2.1 dec.2.2 latencyMs]
        traces := st.traces
        outcome := Except.ok
          { risk := dec.1, reasons := dec.2.1, recommendedAction := dec.2.2
            plan := plan, steps := st.steps, fallbackUsed := st.fallbackUsed
            latencyMs := latencyMs } }

/-- The steps recorded by a run, read off the returned TriageResult. -/
def triageSteps (run : TriageRun) : List AgentStep :=
  match run.outcome with
  | Except.ok res => res.steps
  | Except.error _ => []

/-- The SSE route handler GET /api/triage/:runId/stream: write the connected
event, reject a missing alertId with an error event, otherwise run
executeTriage streaming its events and close with a completed event on
success or an error event carrying the thrown message. -/
def streamHandler (alertIdPresent : Bool) (alertFound createRunOk updateRunOk : Bool)
    (tools : String → Option StepBehavior) (plan : List String) (initElapsed : Nat) : List Event :=
  if alertIdPresent = false then
    [Event.connected, Event.errorEvent "Missing alertId"]
  else
    let run := Orchestrator.executeTriage alertFound createRunOk updateRunOk tools plan initElapsed
    match run.outcome with
    | Except.ok _ => Event.connected :: run.events ++ [Event.completed]
    | Except.error m => Event.connected :: run.events ++ [Event.errorEvent m]

/-- Action computed by ProposeActionTool.run: the risk suggestion, defaulting
to mark_false_positive, passed through the action schema, whose validation
failure is caught and replaced by contact_customer. -/
def ProposeActionTool.runAction (riskAction : Option String) : String :=
  let action := riskAction.getD "mark_false_positive"
  if action ∈ definedActions then action else "contact_customer"

/-- The action the proposal tool returns is always one of the defined
actions, which grounds the proposal hypothesis of the fallback theorem. -/
theorem ProposeActionTool.runAction_mem (riskAction : Option String) :
    ProposeActionTool.runAction riskAction ∈ definedActions := by
  unfold ProposeActionTool.runAction
  simp only []
  split_ifs with h
  · exact h
  · decide

/-! ## Theorems about the circuit breaker and the tool wrapper -/

/-- C1: for every tool name, three consecutive failures of the wrapped
function open the circuit for that tool, and a fourth CircuitBreaker.execute
call made while now minus lastFailureTime is below the 30s cooldown throws
the dedicated circuit-open error without invoking the wrapped function, so
the wrapped function ran exactly three times across the four calls. -/
theorem circuit_opens_after_three_consecutive_failures
    (toolName : String) (t1 t2 t3 t4 : Nat) (e1 e2 e3 : String)
    (fn4 : Except String Unit) (h : t4 < t3 + openDuration) :
    let r1 := CircuitBreaker.execute initialCBStates toolName t1 (Except.error e1 : Except String Unit)
    let r2 := CircuitBreaker.execute r1.states toolName t2 (Except.error e2 : Except String Unit)
    let r3 := CircuitBreaker.execute r2.states toolName t3 (Except.error e3 : Except String Unit)
    let r4 := CircuitBreaker.execute r3.states toolName t4 fn4
    (getState r3.states toolName).isOpen = true ∧
    r1.fnInvoked = true ∧ r2.fnInvoked = true ∧ r3.fnInvoked = true ∧
    r4.fnInvoked = false ∧
    r4.result = Except.error (circuitOpenMsg toolName) := by
  have h30 : t4 < t3 + 30000 := by simpa [openDuration] using h
  simp [CircuitBreaker.execute, onFailure, onSuccess, resetCircuit, initialCBState,
    failureThreshold, openDuration, getState, setState, initialCBStates, h30]

/-- Witness for C1 at toolName riskSignals and concrete times. -/
theorem circuit_opens_after_three_consecutive_failures_witness :
    (5 : Nat) < 3 + openDuration ∧
    (let r1 := CircuitBreaker.execute initialCBStates "riskSignals" 1 (Except.error "boom1" : Except String Unit)
     let r2 := CircuitBreaker.execute r1.states "riskSignals" 2 (Except.error "boom2" : Except String Unit)
     let r3 := CircuitBreaker.execute r2.states "riskSignals" 3 (Except.error "boom3" : Except String Unit)
     let r4 := CircuitBreaker.execute r3.states "riskSignals" 5 (Except.error "boom4" : Except String Unit)
     (getState r3.states "riskSignals").isOpen = true ∧
     r1.fnInvoked = true ∧ r2.fnInvoked = true ∧ r3.fnInvoked = true ∧
     r4.fnInvoked = false ∧
     r4.result = Except.error (circuitOpenMsg "riskSignals")) :=
  ⟨by decide,
   circuit_opens_after_three_consecutive_failures "riskSignals" 1 2 3 5
     "boom1" "boom2" "boom3" (Except.error "boom4") (by decide)⟩

/-- C5 counterexample: open the circuit for a tool with three failures at
time 0, then call CircuitBreaker.execute at time 30000 (exactly the cooldown)
with a failing wrapped function.  The claim says the circuit reopens, but the
resulting state is failures = 1 with the circuit closed: resetCircuit zeroes
the counter, so a single post-cooldown failure is far below the threshold of
three and onFailure leaves the circuit closed. -/
theorem circuit_does_not_reopen_on_first_postcooldown_failure :
    (getState
      (CircuitBreaker.execute
        (CircuitBreaker.execute
          (CircuitBreaker.execute
            (CircuitBreaker.execute initialCBStates "t" 0 (Except.error "e1" : Except String Unit)).states
            "t" 0 (Except.error "e2" : Except String Unit)).states
          "t" 0 (Except.error "e3" : Except String Unit)).states
        "t" 30000 (Except.error "e4" : Except String Unit)).states "t") =
      { failures := 1, lastFailureTime := 30000, isOpen := false } := by
  decide

/-- C5 amended: for every tool whose circuit is open, the first
CircuitBreaker.execute call made once now is at least lastFailureTime plus
the 30s cooldown resets the circuit state (failures = 0, isOpen = false)
before attempting the wrapped function as a normal attempt, and the call
propagates the wrapped outcome unchanged; if that attempt fails the failure
counter restarts at 1 and the circuit stays closed (it does not reopen until
the threshold of three consecutive failures is reached again). -/
theorem postcooldown_call_resets_then_attempts_normally
    (toolName : String) (ss : CBStates) (now : Nat) (fn : Except String Unit)
    (hopen : (getState ss toolName).isOpen = true)
    (hcool : (getState ss toolName).lastFailureTime + openDuration ≤ now) :
    let r := CircuitBreaker.execute ss toolName now fn
    r.fnInvoked = true ∧ r.result = fn ∧
    (∀ a, fn = Except.ok a →
      getState r.states toolName = { failures := 0, lastFailureTime := 0, isOpen := false }) ∧
    (∀ e, fn = Except.error e →
      getState r.states toolName = { failures := 1, lastFailureTime := now, isOpen := false }) := by
  have ho : (ss toolName).isOpen = true := hopen
  have hn : ¬ now < (ss toolName).lastFailureTime + openDuration :=
    Nat.not_lt.mpr hcool
  cases fn with
  | ok a =>
      simp [CircuitBreaker.execute, ho, hn, onSuccess, resetCircuit,
        failureThreshold, getState, setState]
  | error e =>
      simp [CircuitBreaker.execute, ho, hn, onFailure, resetCircuit,
        failureThreshold, getState, setState]

/-- Witness for the amended C5 at a circuit opened by three failures at time
zero, probed at exactly the cooldown boundary with a failing attempt. -/
theorem postcooldown_call_resets_then_attempts_normally_witness :
    ((getState
        (CircuitBreaker.execute
          (CircuitBreaker.execute
            (CircuitBreaker.execute initialCBStates "t" 0 (Except.error "e1" : Except String Unit)).states
            "t" 0 (Except.error "e2" : Except String Unit)).states
          "t" 0 (Except.error "e3" : Except String Unit)).states "t").isOpen = true ∧
      (getState
        (CircuitBreaker.execute
          (CircuitBreaker.execute
            (CircuitBreaker.execute initialCBStates "t" 0 (Except.error "e1" : Except String Unit)).states
            "t" 0 (Except.error "e2" : Except String Unit)).states
          "t" 0 (Except.error "e3" : Except String Unit)).states "t").lastFailureTime + openDuration ≤ 30000) ∧
    (let r := CircuitBreaker.execute
        (CircuitBreaker.execute
          (CircuitBreaker.execute
            (CircuitBreaker.execute initialCBStates "t" 0 (Except.error "e1" : Except String Unit)).states
            "t" 0 (Except.error "e2" : Except String Unit)).states
          "t" 0 (Except.error "e3" : Except String Unit)).states
        "t" 30000 (Except.error "e4" : Except String Unit)
     r.fnInvoked = true ∧ r.result = Except.error "e4" ∧
     (∀ a, (Except.error "e4" : Except String Unit) = Except.ok a →
       getState r.states "t" = { failures := 0, lastFailureTime := 0, isOpen := false }) ∧
     (∀ e, (Except.error "e4" : Except String Unit) = Except.error e →
       getState r.states "t" = { failures := 1, lastFailureTime := 30000, isOpen := false })) :=
  ⟨⟨by decide, by decide⟩,
   postcooldown_call_resets_then_attempts_normally "t" _ 30000 (Except.error "e4")
     (by decide) (by decide)⟩

/-- C3: BaseTool.execute never throws; whatever the circuit state and
whatever the attempts do (success, thrown exception, timeout message,
circuit open, all retries exhausted), it returns a ToolResult that on
success carries ok = true with data and no error, and on failure carries
ok = false with an error message and no data, with the elapsed duration in
both cases, never both data and an error. -/
theorem base_tool_execute_total_and_normalized
    (ss : CBStates) (toolName : String) (now : Nat)
    (attempts : Nat → Except String Unit) (elapsed : Nat) :
    let r := (BaseTool.execute ss toolName now attempts elapsed).result
    r.duration = elapsed ∧
    ((r.ok = true ∧ (∃ a, r.data = some a) ∧ r.error = none) ∨
     (r.ok = false ∧ r.data = none ∧ ∃ m, r.error = some m)) := by
  unfold BaseTool.execute
  cases h : (CircuitBreaker.execute ss toolName now (executeWithRetry attempts).1).result with
  | ok a => simp [h]
  | error e => simp [h]

/-- Three consecutive BaseTool.execute calls on a fresh breaker in which
every attempt of every call fails with the given error messages; returns the
three call outcomes. -/
def threeFailedExecutes (toolName : String) (t1 t2 t3 el1 el2 el3 : Nat)
    (errs1 errs2 errs3 : Nat → String) :
    ToolExecResult Unit × ToolExecResult Unit × ToolExecResult Unit :=
  let r1 := BaseTool.execute (α := Unit) initialCBStates toolName t1
    (fun i => Except.error (errs1 i)) el1
  let r2 := BaseTool.execute (α := Unit) r1.states toolName t2
    (fun i => Except.error (errs2 i)) el2
  let r3 := BaseTool.execute (α := Unit) r2.states toolName t3
    (fun i => Except.error (errs3 i)) el3
  (r1, r2, r3)

/-- C10: the breaker counts one failure per BaseTool.execute invocation, not
per attempt: starting from fresh circuit state, an execute call whose three
attempts all fail runs the tool three times yet raises the failure counter
by one only, so the circuit opens exactly at the third fully failed execute
call, after nine invocations of the underlying run method. -/
theorem breaker_counts_one_failure_per_execute
    (toolName : String) (t1 t2 t3 el1 el2 el3 : Nat)
    (errs1 errs2 errs3 : Nat → String) :
    (threeFailedExecutes toolName t1 t2 t3 el1 el2 el3 errs1 errs2 errs3).1.runInvocations = 3 ∧
    (threeFailedExecutes toolName t1 t2 t3 el1 el2 el3 errs1 errs2 errs3).2.1.runInvocations = 3 ∧
    (threeFailedExecutes toolName t1 t2 t3 el1 el2 el3 errs1 errs2 errs3).2.2.runInvocations = 3 ∧
    (getState (threeFailedExecutes toolName t1 t2 t3 el1 el2 el3 errs1 errs2 errs3).1.states
      toolName).failures = 1 ∧
    (getState (threeFailedExecutes toolName t1 t2 t3 el1 el2 el3 errs1 errs2 errs3).1.states
      toolName).isOpen = false ∧
    (getState (threeFailedExecutes toolName t1 t2 t3 el1 el2 el3 errs1 errs2 errs3).2.1.states
      toolName).failures = 2 ∧
    (getState (threeFailedExecutes toolName t1 t2 t3 el1 el2 el3 errs1 errs2 errs3).2.1.states
      toolName).isOpen = false ∧
    (getState (threeFailedExecutes toolName t1 t2 t3 el1 el2 el3 errs1 errs2 errs3).2.2.states
      toolName).failures = 3 ∧
    (getState (threeFailedExecutes toolName t1 t2 t3 el1 el2 el3 errs1 errs2 errs3).2.2.states
      toolName).isOpen = true ∧
    (threeFailedExecutes toolName t1 t2 t3 el1 el2 el3 errs1 errs2 errs3).1.runInvocations +
      (threeFailedExecutes toolName t1 t2 t3 el1 el2 el3 errs1 errs2 errs3).2.1.runInvocations +
      (threeFailedExecutes toolName t1 t2 t3 el1 el2 el3 errs1 errs2 errs3).2.2.runInvocations = 9 := by
  simp [threeFailedExecutes, BaseTool.execute, executeWithRetry, retryFrom, maxRetries,
    CircuitBreaker.execute, onFailure, onSuccess, resetCircuit, initialCBState,
    failureThreshold, getState, setState, initialCBStates]

/-! ## Theorems about the rate limiter -/

/-- Refilling a bucket at the very instant it was last refilled adds no
tokens. -/
theorem refillTokens_same_instant (T : Nat) (q : ℚ) :
    refillTokens (some { tokens := q, lastRefill := T }) T = min maxTokens q := by
  simp [refillTokens]

/-- Refilling an empty bucket one second after its last refill brings it
back to full capacity. -/
theorem refillTokens_after_one_second (T : Nat) :
    refillTokens (some { tokens := 0, lastRefill := T }) (T + 1000) = 5 := by
  simp only [refillTokens, refillRate, refillInterval, maxTokens]
  push_cast
  norm_num

/-- The retry-after reported when the bucket is empty: the shortfall of one
token at five tokens per second is 200ms, rounded up to one second. -/
theorem retryAfterSeconds_empty : retryAfterSeconds 0 = 1 := by
  have h200 : ((1 : ℚ) - 0) / refillRate * refillInterval = 200 := by
    norm_num [refillRate, refillInterval]
  have hceil : Int.ceil (((1 : ℚ) - 0) / refillRate * refillInterval) = (200 : ℤ) := by
    rw [h200]
    norm_num
  rw [retryAfterSeconds, hceil]
  rw [Int.ceil_eq_iff]
  norm_num

/-- C7: with maxTokens = 5 and refillRate = 5 per second, a client starting
from an absent bucket gets five immediate requests allowed, the sixth
immediate request rejected with HTTP 429 and retryAfter = 1 (the one-token
shortfall over the refill rate, rounded up), and a request one second later
allowed again. -/
theorem token_bucket_burst_reject_and_refill (T : Nat) :
    checkSequence none [T, T, T, T, T, T, T + 1000] =
      [LimitOutcome.allowed { tokens := 4, lastRefill := T },
       LimitOutcome.allowed { tokens := 3, lastRefill := T },
       LimitOutcome.allowed { tokens := 2, lastRefill := T },
       LimitOutcome.allowed { tokens := 1, lastRefill := T },
       LimitOutcome.allowed { tokens := 0, lastRefill := T },
       LimitOutcome.rejected 1,
       LimitOutcome.allowed { tokens := 4, lastRefill := T + 1000 }] := by
  have c1 : RateLimiter.checkLimit none T =
      LimitOutcome.allowed { tokens := 4, lastRefill := T } := by
    norm_num [RateLimiter.checkLimit, refillTokens, maxTokens]
  have c2 : RateLimiter.checkLimit (some { tokens := 4, lastRefill := T }) T =
      LimitOutcome.allowed { tokens := 3, lastRefill := T } := by
    norm_num [RateLimiter.checkLimit, refillTokens_same_instant, maxTokens]
  have c3 : RateLimiter.checkLimit (some { tokens := 3, lastRefill := T }) T =
      LimitOutcome.allowed { tokens := 2, lastRefill := T } := by
    norm_num [RateLimiter.checkLimit, refillTokens_same_instant, maxTokens]
  have c4 : RateLimiter.checkLimit (some { tokens := 2, lastRefill := T }) T =
      LimitOutcome.allowed { tokens := 1, lastRefill := T } := by
    norm_num [RateLimiter.checkLimit, refillTokens_same_instant, maxTokens]
  have c5 : RateLimiter.checkLimit (some { tokens := 1, lastRefill := T }) T =
      LimitOutcome.allowed { tokens := 0, lastRefill := T } := by
    norm_num [RateLimiter.checkLimit, refillTokens_same_instant, maxTokens]
  have c6 : RateLimiter.checkLimit (some { tokens := 0, lastRefill := T }) T =
      LimitOutcome.rejected 1 := by
    norm_num [RateLimiter.checkLimit, refillTokens_same_instant, maxTokens,
      retryAfterSeconds_empty]
  have c7 : RateLimiter.checkLimit (some { tokens := 0, lastRefill := T }) (T + 1000) =
      LimitOutcome.allowed { tokens := 4, lastRefill := T + 1000 } := by
    norm_num [RateLimiter.checkLimit, refillTokens_after_one_second]
  simp [checkSequence, c1, c2, c3, c4, c5, c6, c7]

/-- C9: the rate limiter fails open on store unavailability: when the bucket
read throws the request is allowed, and when the bucket write on the allow
path throws the request is still allowed rather than rejected or blocked. -/
theorem rate_limiter_fails_open_on_store_error
    (msg : String) (setThrows : Bool) (now now2 : Nat) (bucket? : Option RateLimitBucket) :
    (RateLimiter.checkLimitWithStore (Except.error msg) setThrows now).isAllowed = true ∧
    (1 ≤ refillTokens bucket? now2 →
      (RateLimiter.checkLimitWithStore (Except.ok bucket?) true now2).isAllowed = true) := by
  refine ⟨rfl, fun h => ?_⟩
  simp [RateLimiter.checkLimitWithStore, RateLimiter.checkLimit, h, LimitOutcome.isAllowed]

/-- Witness for C9 with an absent bucket, where the refill step yields a full
bucket, well above one token. -/
theorem rate_limiter_fails_open_on_store_error_witness :
    ((RateLimiter.checkLimitWithStore (Except.error "store down") true 0).isAllowed = true ∧
      (1 ≤ refillTokens none 7 →
        (RateLimiter.checkLimitWithStore (Except.ok none) true 7).isAllowed = true)) ∧
    (1 : ℚ) ≤ refillTokens none 7 :=
  ⟨rate_limiter_fails_open_on_store_error "store down" true 0 7 none,
   by norm_num [refillTokens, maxTokens]⟩

/-! ## Helper lemmas about the orchestrator loop -/

/-- Wall-clock time one loop iteration consumes. -/
def stepDur : StepBehavior → Nat
  | StepBehavior.normal _ d => d
  | StepBehavior.streamThrows _ d => d
  | StepBehavior.traceThrows _ _ d => d

/-- Events one loop iteration pushes. -/
def stepBlock (step : String) : StepBehavior → List Event
  | StepBehavior.streamThrows _ _ => [Event.toolUpdateRunning step]
  | StepBehavior.traceThrows _ _ _ => [Event.toolUpdateRunning step]
  | StepBehavior.normal r d =>
      if r.ok then [Event.toolUpdateRunning step, Event.toolUpdateCompleted step d]
      else [Event.toolUpdateRunning step, Event.fallbackTriggered step r.error]

/-- Step records one loop iteration appends. -/
def stepRecords (step : String) : StepBehavior → List AgentStep
  | StepBehavior.streamThrows _ d =>
      [{ step := step, ok := false, duration := d, fallbackUsed := true }]
  | StepBehavior.normal r d =>
      [{ step := step, ok := r.ok, duration := d, fallbackUsed := !r.ok }]
  | StepBehavior.traceThrows r _ d =>
      [{ step := step, ok := r.ok, duration := d, fallbackUsed := !r.ok },
       { step := step, ok := false, duration := d, fallbackUsed := true }]

/-- Trace rows one loop iteration persists: exactly one on the normal path,
none when the iteration threw. -/
def stepTraces (step : String) : StepBehavior → List String
  | StepBehavior.normal _ _ => [step]
  | StepBehavior.streamThrows _ _ => []
  | StepBehavior.traceThrows _ _ _ => []

theorem storeResult_steps (st : OrchState) (step : String) (r : ToolResult ToolData) :
    (storeResult st step r).steps = st.steps := by
  unfold storeResult
  split_ifs <;> rfl

theorem storeResult_traces (st : OrchState) (step : String) (r : ToolResult ToolData) :
    (storeResult st step r).traces = st.traces := by
  unfold storeResult
  split_ifs <;> rfl

theorem storeResult_events (st : OrchState) (step : String) (r : ToolResult ToolData) :
    (storeResult st step r).events = st.events := by
  unfold storeResult
  split_ifs <;> rfl

theorem storeResult_fallbackUsed (st : OrchState) (step : String) (r : ToolResult ToolData) :
    (storeResult st step r).fallbackUsed = st.fallbackUsed := by
  unfold storeResult
  split_ifs <;> rfl

theorem storeResult_elapsed (st : OrchState) (step : String) (r : ToolResult ToolData) :
    (storeResult st step r).elapsed = st.elapsed := by
  unfold storeResult
  split_ifs <;> rfl

theorem storeResult_riskResult_ne (st : OrchState) (step : String) (r : ToolResult ToolData)
    (h : step ≠ "riskSignals") :
    (storeResult st step r).riskResult = st.riskResult := by
  unfold storeResult
  split_ifs <;> simp_all

theorem storeResult_proposalResult_ne (st : OrchState) (step : String) (r : ToolResult ToolData)
    (h : step ≠ "proposeAction") :
    (storeResult st step r).proposalResult = st.proposalResult := by
  unfold storeResult
  split_ifs <;> simp_all

theorem storeResult_proposalResult (st : OrchState) (step : String) (r : ToolResult ToolData) :
    (storeResult st step r).proposalResult = st.proposalResult ∨
    (storeResult st step r).proposalResult = r.data := by
  unfold storeResult
  split_ifs <;> simp

theorem runStepBody_events (st : OrchState) (step : String) (b : StepBehavior) :
    (runStepBody st step b).events = st.events ++ stepBlock step b := by
  cases b with
  | streamThrows m d => rfl
  | traceThrows r m d => simp [runStepBody, stepBlock, storeResult_events]
  | normal r d =>
      by_cases h : r.ok
      · simp [runStepBody, stepBlock, storeResult_events, h]
      · simp [runStepBody, stepBlock, storeResult_events, h]
        split_ifs <;> simp

theorem runStepBody_steps (st : OrchState) (step : String) (b : StepBehavior) :
    (runStepBody st step b).steps = st.steps ++ stepRecords step b := by
  cases b with
  | streamThrows m d => rfl
  | traceThrows r m d => simp [runStepBody, stepRecords, storeResult_steps]
  | normal r d =>
      by_cases h : r.ok
      · simp [runStepBody, stepRecords, storeResult_steps, h]
      · simp [runStepBody, stepRecords, storeResult_steps, h]
        split_ifs <;> simp

theorem runStepBody_traces (st : OrchState) (step : String) (b : StepBehavior) :
    (runStepBody st step b).traces = st.traces ++ stepTraces step b := by
  cases b with
  | streamThrows m d => simp [runStepBody, stepTraces]
  | traceThrows r m d => simp [runStepBody, stepTraces, storeResult_traces]
  | normal r d =>
      by_cases h : r.ok
      · simp [runStepBody, stepTraces, storeResult_traces, h]
      · simp [runStepBody, stepTraces, storeResult_traces, h]
        split_ifs <;> simp

theorem runStepBody_fallback_mono (st : OrchState) (step : String) (b : StepBehavior)
    (h : st.fallbackUsed = true) :
    (runStepBody st step b).fallbackUsed = true := by
  cases b with
  | streamThrows m d => rfl
  | traceThrows r m d => rfl
  | normal r d =>
      by_cases hok : r.ok
      · simp [runStepBody, storeResult_fallbackUsed, hok, h]
      · simp [runStepBody, storeResult_fallbackUsed, hok, h]
        split_ifs <;> simp [storeResult_fallbackUsed, h]

theorem runStepBody_riskResult_ne (st : OrchState) (step : String) (b : StepBehavior)
    (h : step ≠ "riskSignals") :
    (runStepBody st step b).riskResult = st.riskResult := by
  cases b with
  | streamThrows m d => rfl
  | traceThrows r m d => simp [runStepBody, storeResult_riskResult_ne _ _ _ h]
  | normal r d =>
      by_cases hok : r.ok <;>
        simp [runStepBody, storeResult_riskResult_ne _ _ _ h, hok, h]

theorem runStepBody_risk_failure (st : OrchState) (r : ToolResult ToolData) (d : Nat)
    (hfail : r.ok = false) :
    (runStepBody st "riskSignals" (StepBehavior.normal r d)).riskResult = some getFallbackRisk ∧
    (runStepBody st "riskSignals" (StepBehavior.normal r d)).fallbackUsed = true := by
  simp [runStepBody, hfail, storeResult, storeResult_fallbackUsed]

theorem runStepBody_proposalResult_ne (st : OrchState) (step : String) (b : StepBehavior)
    (h : step ≠ "proposeAction") :
    (runStepBody st step b).proposalResult = st.proposalResult := by
  cases b with
  | streamThrows m d => rfl
  | traceThrows r m d => simp [runStepBody, storeResult_proposalResult_ne _ _ _ h]
  | normal r d =>
      by_cases hok : r.ok
      · simp [runStepBody, storeResult_proposalResult_ne _ _ _ h, hok]
      · simp [runStepBody, storeResult_proposalResult_ne _ _ _ h, hok]
        split_ifs <;> simp [storeResult_proposalResult_ne _ _ _ h]

theorem runStepBody_proposalResult (st : OrchState) (step : String) (b : StepBehavior) :
    (runStepBody st step b).proposalResult = st.proposalResult ∨
    ∃ rp, behaviorResult b = some rp ∧ (runStepBody st step b).proposalResult = rp.data := by
  cases b with
  | streamThrows m d => exact Or.inl rfl
  | traceThrows r m d =>
      rcases storeResult_proposalResult ({ st with
          events := st.events ++ [Event.toolUpdateRunning step] }) step r with h | h
      · exact Or.inl (by simpa [runStepBody] using h)
      · exact Or.inr ⟨r, rfl, by simpa [runStepBody] using h⟩
  | normal r d =>
      by_cases hok : r.ok
      · rcases storeResult_proposalResult ({ st with
            events := st.events ++ [Event.toolUpdateRunning step] }) step r with h | h
        · refine Or.inl ?_
          simpa [runStepBody, hok] using h
        · refine Or.inr ⟨r, rfl, ?_⟩
          simpa [runStepBody, hok] using h
      · rcases storeResult_proposalResult ({ st with
            events := st.events ++ [Event.toolUpdateRunning step] }) step r with h | h
        · refine Or.inl ?_
          simp only [runStepBody, Bool.not_eq_true] at hok ⊢
          split_ifs <;> simpa [hok] using h
        · refine Or.inr ⟨r, rfl, ?_⟩
          simp only [runStepBody, Bool.not_eq_true] at hok ⊢
          split_ifs <;> simpa [hok] using h

theorem stepRecords_step (s : String) (b : StepBehavior) :
    ∀ rec ∈ stepRecords s b, rec.step = s := by
  cases b <;> simp [stepRecords]

theorem execLoop_stops_when_budget_exceeded (tools : String → Option StepBehavior)
    (plan : List String) (st : OrchState) (h : flowBudget < st.elapsed) :
    Orchestrator.execLoop tools st plan = st := by
  induction plan with
  | nil => rfl
  | cons s rest ih =>
      unfold Orchestrator.execLoop
      cases tools s with
      | none => exact ih
      | some b => simp [h]

theorem execLoop_traces_length_le (tools : String → Option StepBehavior)
    (plan : List String) (st : OrchState) :
    (Orchestrator.execLoop tools st plan).traces.length ≤ st.traces.length + plan.length := by
  induction plan generalizing st with
  | nil => simp [Orchestrator.execLoop]
  | cons s rest ih =>
      unfold Orchestrator.execLoop
      cases tools s with
      | none =>
          have := ih st
          simpa using Nat.le_trans this (by omega)
      | some b =>
          by_cases h : flowBudget < st.elapsed
          · simp [h]
          · have h1 := ih (runStepBody st s b)
            have h2 : (runStepBody st s b).traces.length ≤ st.traces.length + 1 := by
              rw [runStepBody_traces]
              cases b <;> simp [stepTraces]
            simp only [h, if_neg, ite_false]
            simp only [List.length_cons]
            omega

theorem execLoop_traces_eq_steps (tools : String → Option StepBehavior)
    (hnormal : ∀ s b, tools s = some b → ∃ r d, b = StepBehavior.normal r d)
    (plan : List String) (st : OrchState)
    (h : st.traces.length = st.steps.length) :
    (Orchestrator.execLoop tools st plan).traces.length =
      (Orchestrator.execLoop tools st plan).steps.length := by
  induction plan generalizing st with
  | nil => simpa [Orchestrator.execLoop] using h
  | cons s rest ih =>
      unfold Orchestrator.execLoop
      cases hb : tools s with
      | none => exact ih st h
      | some b =>
          by_cases hbud : flowBudget < st.elapsed
          · simpa [hbud] using h
          · simp only [hbud, ite_false]
            refine ih (runStepBody st s b) ?_
            obtain ⟨r, d, rfl⟩ := hnormal s b hb
            rw [runStepBody_traces, runStepBody_steps]
            simp [stepTraces, stepRecords, h]

/-- C6: before each registered plan step the orchestrator compares the
elapsed wall-clock time against the 5000ms flow budget, and once it is
exceeded neither that step nor any later step executes — the loop returns
its state untouched; and independently of the budget the run is never
treated as failed: the run record update succeeds, executeTriage returns a
TriageResult assembled from whatever the executed steps computed, and the
last streamed event is the decision-finalized event. -/
theorem flow_budget_skips_steps_and_still_finalizes
    (tools : String → Option StepBehavior) (plan : List String) (init : Nat) (st : OrchState) :
    (flowBudget < st.elapsed → Orchestrator.execLoop tools st plan = st) ∧
    (∃ res, (Orchestrator.executeTriage true true true tools plan init).outcome = Except.ok res ∧
      (Orchestrator.executeTriage true true true tools plan init).events.getLast? =
        some (Event.decisionFinalized res.risk res.reasons res.recommendedAction res.latencyMs)) := by
  constructor
  · exact execLoop_stops_when_budget_exceeded tools plan st
  · refine ⟨_, rfl, ?_⟩
    simp [Orchestrator.executeTriage]

/-- Tools used by the C6 witness: every step succeeds instantly. -/
def budgetWitnessTools : String → Option StepBehavior :=
  fun _ => some (StepBehavior.normal { ok := true, data := some {}, error := none, duration := 0 } 100)

/-- Witness for C6: with the run already 6000ms old, past the 5000ms budget,
the whole default plan is skipped and the loop state is untouched, while the
run still finalizes with a decision-finalized event. -/
theorem flow_budget_skips_steps_and_still_finalizes_witness :
    (Orchestrator.execLoop budgetWitnessTools (initOrchState defaultPlan 6000) defaultPlan =
      initOrchState defaultPlan 6000) ∧
    (∃ res, (Orchestrator.executeTriage true true true budgetWitnessTools defaultPlan 6000).outcome =
        Except.ok res ∧
      (Orchestrator.executeTriage true true true budgetWitnessTools defaultPlan 6000).events.getLast? =
        some (Event.decisionFinalized res.risk res.reasons res.recommendedAction res.latencyMs)) :=
  ⟨(flow_budget_skips_steps_and_still_finalizes budgetWitnessTools defaultPlan 6000
      (initOrchState defaultPlan 6000)).1 (by decide),
   (flow_budget_skips_steps_and_still_finalizes budgetWitnessTools defaultPlan 6000
      (initOrchState defaultPlan 6000)).2⟩

/-- Tools used by the C4 counterexample: the dataAccess step runs, its
ToolResult comes back failed, and persisting the trace row throws, so the
catch block records a second failed step and no trace row exists. -/
def traceThrowTools : String → Option StepBehavior :=
  fun s =>
    if s = "dataAccess" then
      some (StepBehavior.traceThrows
        { ok := false, data := none, error := some "db down", duration := 0 }
        "trace create failed" 3)
    else none

/-- C4 counterexample: a run of a one-step plan in which the step was
attempted (the tool ran and returned a failed ToolResult) but the trace row
write threw.  The claimed equality fails: zero trace rows were persisted,
while the attempted, failed step was recorded — twice, in fact, because the
catch block appends a second failed record, so the in-memory step list even
exceeds the plan length. -/
theorem trace_rows_lost_when_trace_write_throws :
    (Orchestrator.executeTriage true true true traceThrowTools ["dataAccess"] 0).traces.length = 0 ∧
    (triageSteps (Orchestrator.executeTriage true true true traceThrowTools ["dataAccess"] 0)).length = 2 ∧
    ∀ rec ∈ triageSteps (Orchestrator.executeTriage true true true traceThrowTools ["dataAccess"] 0),
      rec.step = "dataAccess" ∧ rec.ok = false := by
  decide

/-- C4 amended: the number of persisted trace rows never exceeds the plan
length (5 for the default plan), and it equals the number of steps attempted
— including steps whose ToolResult came back failed — whenever every step
takes the normal path of the loop body; a step that fails by throwing an
exception (caught by the catch block) is recorded as a failed step in the
in-memory step list but no trace row is persisted for it. -/
theorem trace_rows_bound_and_match_normal_steps
    (tools : String → Option StepBehavior) (plan : List String) (init : Nat) :
    (Orchestrator.executeTriage true true true tools plan init).traces.length ≤ plan.length ∧
    ((∀ s b, tools s = some b → ∃ r d, b = StepBehavior.normal r d) →
      ∃ res, (Orchestrator.executeTriage true true true tools plan init).outcome = Except.ok res ∧
        (Orchestrator.executeTriage true true true tools plan init).traces.length =
          res.steps.length) := by
  constructor
  · have h := execLoop_traces_length_le tools plan (initOrchState plan init)
    simpa [Orchestrator.executeTriage, initOrchState] using h
  · intro hnormal
    refine ⟨_, rfl, ?_⟩
    have h := execLoop_traces_eq_steps tools hnormal plan (initOrchState plan init)
      (by simp [initOrchState])
    simpa [Orchestrator.executeTriage] using h

/-- Tools on the normal path with a failing risk tool and a proposal tool
returning a schema-valid action, used by the C2 and C4 witnesses. -/
def riskFailTools : String → Option StepBehavior :=
  fun s =>
    if s = "riskSignals" then
      some (StepBehavior.normal
        { ok := false, data := none, error := some "fraud agent timeout", duration := 0 } 10)
    else if s = "proposeAction" then
      some (StepBehavior.normal
        { ok := true, data := some { action := some "contact_customer" }, error := none,
          duration := 0 } 10)
    else
      some (StepBehavior.normal { ok := true, data := some {}, error := none, duration := 0 } 10)

/-- Witness for the amended C4: on the default plan with every tool on the
normal path and the riskSignals tool failing, exactly five trace rows are
persisted, one per attempted step. -/
theorem trace_rows_bound_and_match_normal_steps_witness :
    ((Orchestrator.executeTriage true true true riskFailTools defaultPlan 0).traces.length ≤
      defaultPlan.length ∧
     ((∀ s b, riskFailTools s = some b → ∃ r d, b = StepBehavior.normal r d) →
       ∃ res, (Orchestrator.executeTriage true true true riskFailTools defaultPlan 0).outcome =
           Except.ok res ∧
         (Orchestrator.executeTriage true true true riskFailTools defaultPlan 0).traces.length =
           res.steps.length)) ∧
    (∀ s b, riskFailTools s = some b → ∃ r d, b = StepBehavior.normal r d) :=
  ⟨trace_rows_bound_and_match_normal_steps riskFailTools defaultPlan 0,
   fun s b hb => by
     unfold riskFailTools at hb
     split_ifs at hb <;>
       · injection hb with h
         exact ⟨_, _, h.symm⟩⟩

/-- An optional action value only ever holds schema-valid actions. -/
def actionOk (o : Option String) : Prop :=
  ∀ a, o = some a → a ∈ definedActions

theorem execLoop_risk_fallback_invariant
    (tools : String → Option StepBehavior) (r : ToolResult ToolData) (d : Nat)
    (hrisk : tools "riskSignals" = some (StepBehavior.normal r d))
    (hfail : r.ok = false)
    (hprop : ∀ b, tools "proposeAction" = some b → ∀ rp, behaviorResult b = some rp →
      actionOk (rp.data.bind ToolData.action))
    (plan : List String) (st : OrchState)
    (h1 : (∃ rec ∈ st.steps, rec.step = "riskSignals") →
      st.fallbackUsed = true ∧ st.riskResult = some getFallbackRisk)
    (h2 : actionOk (st.proposalResult.bind ToolData.action)) :
    ((∃ rec ∈ (Orchestrator.execLoop tools st plan).steps, rec.step = "riskSignals") →
      (Orchestrator.execLoop tools st plan).fallbackUsed = true ∧
      (Orchestrator.execLoop tools st plan).riskResult = some getFallbackRisk) ∧
    actionOk ((Orchestrator.execLoop tools st plan).proposalResult.bind ToolData.action) := by
  induction plan generalizing st with
  | nil => exact ⟨h1, h2⟩
  | cons s rest ih =>
      unfold Orchestrator.execLoop
      cases hb : tools s with
      | none => exact ih st h1 h2
      | some b =>
          by_cases hbud : flowBudget < st.elapsed
          · simpa [hbud] using And.intro h1 h2
          · simp only [hbud, ite_false]
            refine ih (runStepBody st s b) ?_ ?_
            · intro hmem
              by_cases hs : s = "riskSignals"
              · subst hs
                rw [hrisk] at hb
                injection hb with hb
                subst hb
                exact ⟨(runStepBody_risk_failure st r d hfail).2,
                  (runStepBody_risk_failure st r d hfail).1⟩
              · obtain ⟨rec, hrec, hrecs⟩ := hmem
                rw [runStepBody_steps] at hrec
                rcases List.mem_append.mp hrec with hold | hnew
                · have hh := h1 ⟨rec, hold, hrecs⟩
                  exact ⟨runStepBody_fallback_mono st s b hh.1,
                    (runStepBody_riskResult_ne st s b hs).trans hh.2⟩
                · exact absurd ((stepRecords_step s b rec hnew).symm.trans hrecs) hs
            · by_cases hp : s = "proposeAction"
              · subst hp
                rcases runStepBody_proposalResult st "proposeAction" b with hsame | ⟨rp, hrp, heq⟩
                · rw [hsame]
                  exact h2
                · rw [heq]
                  exact hprop b hb rp hrp
              · rw [runStepBody_proposalResult_ne st s b hp]
                exact h2

/-- C2: whenever the riskSignals step runs and its ToolResult comes back
failed, executeTriage still completes: it returns a TriageResult (the run is
not aborted) with fallbackUsed = true, a medium risk verdict, the reason
string indicating fallback, and a recommended action drawn from the defined
action set — the proposal action when the proposal tool produced a
schema-valid one, else the fallback verdict suggestion freeze_card, else
contact_customer. -/
theorem triage_risk_failure_yields_fallback_decision
    (tools : String → Option StepBehavior) (plan : List String) (init : Nat)
    (r : ToolResult ToolData) (d : Nat)
    (hrisk : tools "riskSignals" = some (StepBehavior.normal r d))
    (hfail : r.ok = false)
    (hprop : ∀ b, tools "proposeAction" = some b → ∀ rp, behaviorResult b = some rp →
      actionOk (rp.data.bind ToolData.action))
    (hstep : ∃ rec ∈ triageSteps (Orchestrator.executeTriage true true true tools plan init),
      rec.step = "riskSignals") :
    ∃ res, (Orchestrator.executeTriage true true true tools plan init).outcome = Except.ok res ∧
      res.fallbackUsed = true ∧
      res.risk = RiskLevel.medium ∧
      "Risk assessment unavailable (fallback)" ∈ res.reasons ∧
      res.recommendedAction ∈ definedActions := by
  have inv := execLoop_risk_fallback_invariant tools r d hrisk hfail hprop plan
    (initOrchState plan init)
    (by
      rintro ⟨rec, hrec, -⟩
      simp [initOrchState] at hrec)
    (by
      intro a ha
      simp [initOrchState] at ha)
  have hstep' : ∃ rec ∈ (Orchestrator.execLoop tools (initOrchState plan init) plan).steps,
      rec.step = "riskSignals" := hstep
  have hfb := (inv.1 hstep').1
  have hrisk' := (inv.1 hstep').2
  refine ⟨_, rfl, hfb, ?_, ?_, ?_⟩
  · simp [finalDecision, hrisk', getFallbackRisk]
  · simp [finalDecision, hrisk', getFallbackRisk, List.mem_append]
  · cases hact : (Orchestrator.execLoop tools (initOrchState plan init) plan).proposalResult.bind
        ToolData.action with
    | none =>
        simp [finalDecision, hrisk', hact, getFallbackRisk, Option.orElse, definedActions]
    | some a =>
        have ha := inv.2 a hact
        simpa [finalDecision, hrisk', hact, getFallbackRisk, Option.orElse] using ha

/-- Witness for C2: the default plan with a failing risk tool; the run
completes with the fallback verdict and a defined recommended action. -/
theorem triage_risk_failure_yields_fallback_decision_witness :
    (riskFailTools "riskSignals" = some (StepBehavior.normal
        { ok := false, data := none, error := some "fraud agent timeout", duration := 0 } 10) ∧
     (∃ rec ∈ triageSteps (Orchestrator.executeTriage true true true riskFailTools defaultPlan 0),
       rec.step = "riskSignals")) ∧
    (∃ res, (Orchestrator.executeTriage true true true riskFailTools defaultPlan 0).outcome =
        Except.ok res ∧
      res.fallbackUsed = true ∧
      res.risk = RiskLevel.medium ∧
      "Risk assessment unavailable (fallback)" ∈ res.reasons ∧
      res.recommendedAction ∈ definedActions) :=
  ⟨⟨rfl, by decide⟩,
   triage_risk_failure_yields_fallback_decision riskFailTools defaultPlan 0
     { ok := false, data := none, error := some "fraud agent timeout", duration := 0 } 10
     rfl rfl
     (by
       intro b hb rp hrp
       have hpa : riskFailTools "proposeAction" = some (StepBehavior.normal
           { ok := true, data := some { action := some "contact_customer" }, error := none,
             duration := 0 } 10) := rfl
       rw [hpa] at hb
       injection hb with hb
       subst hb
       simp only [behaviorResult, Option.some.injEq] at hrp
       subst hrp
       intro a ha
       have ha' : some "contact_customer" = some a := ha
       injection ha' with ha'
       subst ha'
       decide)
     (by decide)⟩

/-- The step a per-step stream event belongs to, if it is one. -/
def Event.stepLabel : Event → Option String
  | Event.toolUpdateRunning s => some s
  | Event.toolUpdateCompleted s _ => some s
  | Event.fallbackTriggered s _ => some s
  | _ => none

/-- The plan with every step name doubled: an upper bound for the per-step
event labels, since each step pushes at most two labelled events. -/
def planDoubled : List String → List String
  | [] => []
  | s :: rest => s :: s :: planDoubled rest

theorem stepBlock_labels (s : String) (b : StepBehavior) :
    List.Sublist ((stepBlock s b).filterMap Event.stepLabel) [s, s] := by
  cases b with
  | streamThrows m d =>
      simp [stepBlock, Event.stepLabel]
  | traceThrows r m d =>
      simp [stepBlock, Event.stepLabel]
  | normal r d =>
      by_cases h : r.ok
      · have hl : (stepBlock s (StepBehavior.normal r d)).filterMap Event.stepLabel = [s, s] := by
          simp [stepBlock, Event.stepLabel, h]
        rw [hl]
      · have hl : (stepBlock s (StepBehavior.normal r d)).filterMap Event.stepLabel = [s, s] := by
          simp [stepBlock, Event.stepLabel, h]
        rw [hl]

theorem stepBlock_mem_isSome (s : String) (b : StepBehavior) :
    ∀ e ∈ stepBlock s b, (Event.stepLabel e).isSome = true := by
  cases b with
  | streamThrows m d => simp [stepBlock, Event.stepLabel]
  | traceThrows r m d => simp [stepBlock, Event.stepLabel]
  | normal r d =>
      by_cases h : r.ok <;>
        simp [stepBlock, Event.stepLabel, h]

theorem execLoop_cons (tools : String → Option StepBehavior) (st : OrchState)
    (s : String) (rest : List String) :
    Orchestrator.execLoop tools st (s :: rest) =
      match tools s with
      | none => Orchestrator.execLoop tools st rest
      | some b =>
          if flowBudget < st.elapsed then st
          else Orchestrator.execLoop tools (runStepBody st s b) rest := rfl

theorem execLoop_events (tools : String → Option StepBehavior)
    (plan : List String) (st : OrchState) :
    ∃ mid, (Orchestrator.execLoop tools st plan).events = st.events ++ mid ∧
      List.Sublist (mid.filterMap Event.stepLabel) (planDoubled plan) ∧
      ∀ e ∈ mid, (Event.stepLabel e).isSome = true := by
  induction plan generalizing st with
  | nil => exact ⟨[], by simp [Orchestrator.execLoop], by simp [planDoubled], by simp⟩
  | cons s rest ih =>
      cases htools : tools s with
      | none =>
          obtain ⟨mid, h1, h2, h3⟩ := ih st
          refine ⟨mid, ?_, ?_, h3⟩
          · simpa [execLoop_cons, htools] using h1
          · refine h2.trans ?_
            have hd : planDoubled (s :: rest) = [s, s] ++ planDoubled rest := rfl
            rw [hd]
            exact List.sublist_append_right _ _
      | some b =>
          by_cases hbud : flowBudget < st.elapsed
          · exact ⟨[], by simp [execLoop_cons, htools, hbud], List.nil_sublist _, by simp⟩
          · obtain ⟨mid, h1, h2, h3⟩ := ih (runStepBody st s b)
            refine ⟨stepBlock s b ++ mid, ?_, ?_, ?_⟩
            · simp only [execLoop_cons, htools, hbud, ite_false]
              rw [h1, runStepBody_events, List.append_assoc]
            · rw [List.filterMap_append]
              have hd : planDoubled (s :: rest) = [s, s] ++ planDoubled rest := rfl
              rw [hd]
              exact (stepBlock_labels s b).append h2
            · intro e he
              rcases List.mem_append.mp he with h | h
              · exact stepBlock_mem_isSome s b e h
              · exact h3 e h

/-- C8: the event stream of the SSE route always terminates with either a
decision-finalized event immediately followed by a completed event, or with
an error event carrying a message; and in the successful case the run
events are ordered: plan-built first, then only per-step events whose step
labels follow the plan order (at most the running plus completion or
fallback event per planned step), then decision-finalized, then completed. -/
theorem stream_always_ends_with_decision_or_error
    (alertIdPresent alertFound createRunOk updateRunOk : Bool)
    (tools : String → Option StepBehavior) (plan : List String) (init : Nat) :
    (∃ mid risk reasons act lat,
      streamHandler alertIdPresent alertFound createRunOk updateRunOk tools plan init =
        Event.connected :: Event.planBuilt plan :: mid ++
          [Event.decisionFinalized risk reasons act lat, Event.completed] ∧
      List.Sublist (mid.filterMap Event.stepLabel) (planDoubled plan) ∧
      ∀ e ∈ mid, (Event.stepLabel e).isSome = true) ∨
    (∃ pre m,
      streamHandler alertIdPresent alertFound createRunOk updateRunOk tools plan init =
        pre ++ [Event.errorEvent m]) := by
  cases alertIdPresent with
  | false => exact Or.inr ⟨[Event.connected], "Missing alertId", rfl⟩
  | true =>
      cases alertFound with
      | false => exact Or.inr ⟨[Event.connected], "Alert not found", rfl⟩
      | true =>
          cases createRunOk with
          | false => exact Or.inr ⟨[Event.connected], "triage run create failed", rfl⟩
          | true =>
              obtain ⟨mid, h1, h2, h3⟩ :=
                execLoop_events tools plan (initOrchState plan init)
              cases updateRunOk with
              | false =>
                  refine Or.inr ⟨Event.connected ::
                    (Orchestrator.execLoop tools (initOrchState plan init) plan).events,
                    "triage run update failed", ?_⟩
                  simp [streamHandler, Orchestrator.executeTriage]
              | true =>
                  refine Or.inl ⟨mid,
                    (finalDecision (Orchestrator.execLoop tools (initOrchState plan init) plan)).1,
                    (finalDecision (Orchestrator.execLoop tools (initOrchState plan init) plan)).2.1,
                    (finalDecision (Orchestrator.execLoop tools (initOrchState plan init) plan)).2.2,
                    (Orchestrator.execLoop tools (initOrchState plan init) plan).elapsed,
                    ?_, h2, h3⟩
                  simp only [streamHandler, Orchestrator.executeTriage, Bool.true_eq_false,
                    if_false, ite_false]
                  rw [h1]
                  simp [initOrchState]

end FraudTriage
